import Mathlib

/-!
Verification development for the ccMainTool Common Crawl pipeline
(src/ccTool.py, src/cc_run.py, src/test.py).

The pipeline scans remote Common Crawl index parquet shards with a
keyword/language/content-type filter (DuckDB SQL), optionally persists the
filtered index if it is small, and extracts clean text from individual WARC
records via byte-range fetches.

The embedding below models each source function over explicit data.
External engines (DuckDB, the HTTP layer, the parquet codec, the HTML
parser library) appear as explicit parameters or as definitions whose doc
comments say what they model.
-/

/-- One row of the Common Crawl columnar index, restricted to the columns in
COLUMNS_TO_READ (src/cc_run.py lines 21-31).  Every column is nullable, as
parquet columns are. -/
structure MatchRow where
  url : Option String
  url_host_tld : Option String
  url_host_registered_domain : Option String
  warc_filename : Option String
  warc_record_offset : Option Int
  warc_record_length : Option Int
  content_mime_type : Option String
  content_languages : Option String
  fetch_time : Option String
deriving DecidableEq, Repr

/-- Fuel-indexed SQL LIKE matcher over character lists.  The percent sign
matches any (possibly empty) sequence, the underscore matches exactly one
character, and any other pattern character matches one text character
case-insensitively (this is ILIKE).  DuckDB ILIKE has no default escape
character.  Fuel at least (pattern length + text length + 1) is enough, as
every recursive call shrinks the combined length. -/
def likeMatchF : Nat → List Char → List Char → Bool
  | 0, _, _ => false
  | _ + 1, [], [] => true
  | _ + 1, [], _ :: _ => false
  | f + 1, c :: ps, t =>
    if c = Char.ofNat 37 then
      likeMatchF f ps t ||
        (match t with
         | [] => false
         | _ :: ts => likeMatchF f (c :: ps) ts)
    else if c = Char.ofNat 95 then
      match t with
      | [] => false
      | _ :: ts => likeMatchF f ps ts
    else
      match t with
      | [] => false
      | d :: ts => (c.toLower = d.toLower) && likeMatchF f ps ts

/-- DuckDB `text ILIKE pattern` as a Bool, via the fuel-indexed matcher with
sufficient fuel. -/
def sqlIlike (s : String) (pat : String) : Bool :=
  likeMatchF (pat.length + s.length + 1) pat.toList s.toList

/-- The ILIKE pattern built for one keyword at src/ccTool.py line 71:
a percent sign on each side of the keyword text. -/
def ilikePat (k : String) : String :=
  (Char.ofNat 37).toString ++ k ++ (Char.ofNat 37).toString

/-- SQL three-valued truth values: true, false, unknown (NULL). -/
inductive TV where
  | t
  | f
  | u
deriving DecidableEq, Repr

/-- SQL three-valued AND. -/
def TV.and : TV → TV → TV
  | .f, _ => .f
  | _, .f => .f
  | .t, .t => .t
  | _, _ => .u

/-- SQL three-valued OR. -/
def TV.or : TV → TV → TV
  | .t, _ => .t
  | _, .t => .t
  | .f, .f => .f
  | _, _ => .u

/-- SQL evaluation of `col ILIKE pattern` on a nullable column value:
NULL operand gives unknown. -/
def atomIlike (v : Option String) (pat : String) : TV :=
  match v with
  | none => TV.u
  | some s => if sqlIlike s pat then TV.t else TV.f

/-- SQL evaluation of `col = literal` on a nullable column value:
NULL operand gives unknown. -/
def atomEqTV (v : Option String) (lit : String) : TV :=
  match v with
  | none => TV.u
  | some s => if s = lit then TV.t else TV.f

/-- SQL value of the keyword disjunction built at src/ccTool.py lines 70-72:
`url ILIKE p1 OR url ILIKE p2 OR ...`, one ILIKE atom per keyword, folded
left with SQL OR.  An empty keyword list produces an empty condition string,
which is not a SQL expression at all (see the C9 development); the unknown
value here is an arbitrary placeholder never relied upon. -/
def keywordConditionsTV (url : Option String) : List String → TV
  | [] => TV.u
  | k :: ks =>
    ks.foldl (fun acc k2 => TV.or acc (atomIlike url (ilikePat k2)))
      (atomIlike url (ilikePat k))

/-- Row-level semantics of the WHERE clause of the query built at
src/ccTool.py lines 86-92: the keyword disjunction AND
`content_languages ILIKE` percent-eng-percent AND
`content_mime_type = text/html`, under SQL three-valued logic; a row is kept
exactly when the whole clause evaluates to true.  The DuckDB engine itself is
external; this definition spells out the standard SQL semantics of the clause
the source builds. -/
def duckdbFilterRow (r : MatchRow) (keywords : List String) : Bool :=
  (((keywordConditionsTV r.url keywords).and
      (atomIlike r.content_languages (ilikePat "eng"))).and
    (atomEqTV r.content_mime_type "text/html")) = TV.t

/-- FilterSpec of the specification (spec.md section 3): keyword list,
language token (default eng), required content type (default text/html). -/
structure FilterSpec where
  keywords : List String
  language_token : String
  required_content_type : String
deriving DecidableEq, Repr

/-- Character class the claim calls regex meta-characters. -/
def regexMetaChars : List Char :=
  [Char.ofNat 46, Char.ofNat 94, Char.ofNat 36, Char.ofNat 42, Char.ofNat 43,
   Char.ofNat 63, Char.ofNat 123, Char.ofNat 125, Char.ofNat 91, Char.ofNat 93,
   Char.ofNat 92, Char.ofNat 124, Char.ofNat 40, Char.ofNat 41]

/-- True when the keyword contains a regex meta-character. -/
def hasRegexMeta (k : String) : Bool :=
  k.toList.any (fun c => regexMetaChars.contains c)

/-- List version of the startsWith test. -/
def listStartsWith : List Char → List Char → Bool
  | _, [] => true
  | [], _ :: _ => false
  | c :: cs, d :: ds => (c = d) && listStartsWith cs ds

/-- True when the second list occurs as a contiguous sublist of the first. -/
def listContainsSub : List Char → List Char → Bool
  | [], sub => listStartsWith [] sub
  | c :: cs, sub => listStartsWith (c :: cs) sub || listContainsSub cs sub

/-- Case-insensitive literal substring test. -/
def containsCI (s sub : String) : Bool :=
  listContainsSub (s.toList.map Char.toLower) (sub.toList.map Char.toLower)

/-- Split a character list on a separator character; always returns at least
one (possibly empty) group. -/
def splitOnChar (c : Char) : List Char → List (List Char)
  | [] => [[]]
  | d :: ds =>
    let r := splitOnChar c ds
    if d = c then [] :: r
    else
      match r with
      | [] => [[d]]
      | g :: gs => (d :: g) :: gs

/-- Follows the claim C1 words (and test.py line 69, where the keyword is
passed to pandas str.contains with regex=True): a keyword with regex
meta-characters is interpreted as a regular expression searched
case-insensitively in the url, otherwise as a literal substring.  The regex
interpretation is modelled for the patterns whose only meta-character is the
alternation bar: such a pattern matches when some alternative occurs as a
substring.  This covers the counterexample pattern below exactly. -/
def specKeywordMatches (url k : String) : Bool :=
  if hasRegexMeta k then
    (splitOnChar (Char.ofNat 124) k.toList).any
      (fun alt =>
        listContainsSub (url.toList.map Char.toLower) (alt.map Char.toLower))
  else
    containsCI url k

/-- Follows the claim C1 words: url matches at least one keyword (regex or
literal substring, case-insensitive), content_languages contains the language
token case-insensitively, content_mime_type equals the required content type
exactly, and missing fields never match. -/
def specFilterPred (r : MatchRow) (spec : FilterSpec) : Bool :=
  (match r.url with
   | some u => spec.keywords.any (fun k => specKeywordMatches u k)
   | none => false) &&
  (match r.content_languages with
   | some l => containsCI l spec.language_token
   | none => false) &&
  (match r.content_mime_type with
   | some m => m = spec.required_content_type
   | none => false)

/-- Helper row builder: only the three filter-relevant columns vary. -/
def mkFilterRow (u l m : Option String) : MatchRow :=
  ⟨u, none, none, none, none, none, m, l, none⟩

theorem foldl_or_tf (u : String) (ks : List String) (acc : TV)
    (hacc : acc = TV.t ∨ acc = TV.f) :
    ks.foldl (fun a k => TV.or a (atomIlike (some u) (ilikePat k))) acc =
      if acc = TV.t ∨ ks.any (fun k => sqlIlike u (ilikePat k)) then TV.t
      else TV.f := by
  induction ks generalizing acc with
  | nil =>
    rcases hacc with h | h <;> subst h <;> simp
  | cons k ks ih =>
    simp only [List.foldl_cons, List.any_cons]
    have hstep : TV.or acc (atomIlike (some u) (ilikePat k)) = TV.t ∨
        TV.or acc (atomIlike (some u) (ilikePat k)) = TV.f := by
      rcases hacc with h | h <;> subst h <;>
        · unfold atomIlike TV.or
          by_cases hk : sqlIlike u (ilikePat k) <;> simp [hk]
    rw [ih _ hstep]
    rcases hacc with h | h <;> subst h <;>
      · unfold atomIlike TV.or
        by_cases hk : sqlIlike u (ilikePat k) <;> simp [hk]

theorem keywordConditionsTV_none (ks : List String) :
    keywordConditionsTV none ks = TV.u := by
  cases ks with
  | nil => rfl
  | cons k ks =>
    simp only [keywordConditionsTV]
    have h : ∀ (l : List String), ∀ acc : TV, acc = TV.u →
        l.foldl (fun a k2 => TV.or a (atomIlike none (ilikePat k2))) acc = TV.u := by
      intro l
      induction l with
      | nil => intro acc h; simpa using h
      | cons x xs ih => intro acc h; subst h; exact ih _ rfl
    exact h ks _ rfl

theorem keywordConditionsTV_some (u k : String) (ks : List String) :
    keywordConditionsTV (some u) (k :: ks) =
      if (k :: ks).any (fun k2 => sqlIlike u (ilikePat k2)) then TV.t else TV.f := by
  simp only [keywordConditionsTV]
  rw [foldl_or_tf u ks (atomIlike (some u) (ilikePat k)) (by
    unfold atomIlike
    by_cases hk : sqlIlike u (ilikePat k) <;> simp [hk])]
  unfold atomIlike
  by_cases hk : sqlIlike u (ilikePat k) <;> simp [hk, List.any_cons]

theorem tv_and_chain (a b c : TV) :
    ((a.and b).and c) = TV.t ↔ a = TV.t ∧ b = TV.t ∧ c = TV.t := by
  cases a <;> cases b <;> cases c <;> simp [TV.and]

theorem atomIlike_eq_t (v : Option String) (pat : String) :
    atomIlike v pat = TV.t ↔ ∃ s, v = some s ∧ sqlIlike s pat = true := by
  cases v with
  | none => simp [atomIlike]
  | some s => by_cases h : sqlIlike s pat <;> simp [atomIlike, h]

theorem atomEqTV_eq_t (v : Option String) (lit : String) :
    atomEqTV v lit = TV.t ↔ v = some lit := by
  cases v with
  | none => simp [atomEqTV]
  | some s => by_cases h : s = lit <;> simp [atomEqTV, h]

theorem keywordConditionsTV_eq_t (url : Option String) (k : String)
    (ks : List String) :
    keywordConditionsTV url (k :: ks) = TV.t ↔
      ∃ u, url = some u ∧
        (k :: ks).any (fun k2 => sqlIlike u (ilikePat k2)) = true := by
  cases url with
  | none => simp [keywordConditionsTV_none]
  | some u =>
    rw [keywordConditionsTV_some]
    rcases hany : (k :: ks).any (fun k2 => sqlIlike u (ilikePat k2)) with _ | _
    · rw [if_neg (by simp [hany])]
      constructor
      · intro ht; cases ht
      · rintro ⟨u2, hu2, ha⟩
        obtain rfl : u = u2 := Option.some.inj hu2
        rw [hany] at ha
        cases ha
    · rw [if_pos (by simp [hany])]
      exact ⟨fun _ => ⟨u, rfl, hany⟩, fun _ => rfl⟩

/-- The keyword used by the C1 counterexample: the letter a, the regex
alternation bar, the letter b. -/
def altKw : String :=
  (Char.ofNat 97).toString ++ (Char.ofNat 124).toString ++ (Char.ofNat 98).toString

/-- Claim C1 as stated is false on src/ccTool.py: the DuckDB scan matches
keywords only as literal ILIKE substrings (never as regular expressions), and
it hard-codes the language token eng and the content type text/html, ignoring
the configured FilterSpec values.  Three concrete refutations: a
regex-alternation keyword, a non-eng language token, a non-html required
content type.  In each, the claim predicate is true but the code predicate is
false. -/
theorem C1_counterexample :
    (specFilterPred (mkFilterRow (some "xa") (some "eng") (some "text/html"))
        ⟨[altKw], "eng", "text/html"⟩ = true ∧
      duckdbFilterRow (mkFilterRow (some "xa") (some "eng") (some "text/html"))
        [altKw] = false) ∧
    (specFilterPred (mkFilterRow (some "immigrant news") (some "deu")
          (some "text/html")) ⟨["immigrant"], "deu", "text/html"⟩ = true ∧
      duckdbFilterRow (mkFilterRow (some "immigrant news") (some "deu")
          (some "text/html")) ["immigrant"] = false) ∧
    (specFilterPred (mkFilterRow (some "immigrant news") (some "eng")
          (some "text/plain")) ⟨["immigrant"], "eng", "text/plain"⟩ = true ∧
      duckdbFilterRow (mkFilterRow (some "immigrant news") (some "eng")
          (some "text/plain")) ["immigrant"] = false) := by
  decide

/-- Claim C1 amended: for every row and every nonempty keyword list, the
DuckDB filter keeps the row iff the url ILIKE-matches at least one keyword as
a literal SQL pattern fragment (case-insensitive, with the percent sign and
the underscore acting as SQL wildcards, never as a regular expression), AND
content_languages ILIKE-contains the fixed token eng (the configured language
token is ignored), AND content_mime_type equals the fixed string text/html
exactly; rows with missing fields never match, and the predicate is a total
Lean function, so it cannot raise. -/
theorem C1_amended (r : MatchRow) (ks : List String) (hne : ks ≠ []) :
    duckdbFilterRow r ks = true ↔
      ((∃ u, r.url = some u ∧
          ks.any (fun k => sqlIlike u (ilikePat k)) = true) ∧
       (∃ l, r.content_languages = some l ∧
          sqlIlike l (ilikePat "eng") = true) ∧
       r.content_mime_type = some "text/html") := by
  obtain ⟨k, ks', rfl⟩ := List.exists_cons_of_ne_nil hne
  simp only [duckdbFilterRow, decide_eq_true_eq]
  rw [tv_and_chain, keywordConditionsTV_eq_t, atomIlike_eq_t, atomEqTV_eq_t]

/-- Witness for C1_amended at a concrete matching row. -/
theorem C1_amended_witness :
    duckdbFilterRow
      (mkFilterRow (some "https://example.org/Immigrant-stories")
        (some "eng,fra") (some "text/html")) ["immigrant"] = true :=
  (C1_amended
      (mkFilterRow (some "https://example.org/Immigrant-stories")
        (some "eng,fra") (some "text/html")) ["immigrant"] (by decide)).mpr
    ⟨⟨"https://example.org/Immigrant-stories", rfl, by decide⟩,
     ⟨"eng,fra", rfl, by decide⟩, rfl⟩

/-- The single-quote character used in the generated SQL text. -/
def sqlQuote : String := (Char.ofNat 39).toString

/-- The keyword disjunction string built at src/ccTool.py lines 70-72:
one `url ILIKE` atom per keyword, joined with OR. -/
def buildKeywordConditions (keywords : List String) : String :=
  String.intercalate " OR "
    (keywords.map (fun k => "url ILIKE " ++ sqlQuote ++ ilikePat k ++ sqlQuote))

/-- The per-shard query text built at src/ccTool.py lines 86-92 (whitespace
normalised to single spaces). -/
def queryFor (colsSql httpsUrl cond : String) : String :=
  "SELECT " ++ colsSql ++ " FROM read_parquet(" ++ sqlQuote ++ httpsUrl ++
    sqlQuote ++ ") WHERE (" ++ cond ++ ") AND content_languages ILIKE " ++
    sqlQuote ++ ilikePat "eng" ++ sqlQuote ++ " AND content_mime_type = " ++
    sqlQuote ++ "text/html" ++ sqlQuote

/-- Outcome of a scan run: the aggregated matching rows (the MatchSet), and
the per-shard error reports (shard index, message) written by the except
branch at src/ccTool.py lines 104-107.  Informational progress lines are not
modelled. -/
structure ScanOutcome where
  matchSet : List MatchRow
  errors : List (Nat × String)
deriving DecidableEq, Repr

/-- Loop body of src/ccTool.py lines 80-107: for each selected shard, run the
query through the engine `exec`; on success append the rows (the source only
appends non-empty frames, which does not change the concatenation); on error
record one error report and continue with the next shard. -/
def scanShardsGo (exec : String → Except String (List MatchRow))
    (colsSql cond : String) : Nat → List String → ScanOutcome
  | _, [] => ⟨[], []⟩
  | i, p :: ps =>
    let rest := scanShardsGo exec colsSql cond (i + 1) ps
    match exec (queryFor colsSql ("https://data.commoncrawl.org/" ++ p) cond) with
    | .ok rows =>
      if rows.length > 0 then ⟨rows ++ rest.matchSet, rest.errors⟩
      else ⟨rest.matchSet, rest.errors⟩
    | .error e => ⟨rest.matchSet, (i, "Error: " ++ e) :: rest.errors⟩

/-- The scan of src/ccTool.py lines 54-123: builds the keyword condition and
column list once, then scans the first num_parquet_files shards of the
manifest in order.  The DuckDB engine is the explicit parameter `exec`,
mapping a query text to either a row list or an error message.  The final
concat (lines 113-116) is the concatenation already performed here. -/
def scan_and_filter_index_duckdb (exec : String → Except String (List MatchRow))
    (warc_parquet_paths : List String) (keywords : List String)
    (num_parquet_files : Nat) (columns_to_read : List String) : ScanOutcome :=
  scanShardsGo exec (String.intercalate ", " columns_to_read)
    (buildKeywordConditions keywords) 0 (warc_parquet_paths.take num_parquet_files)

/-- Rows contributed by one shard: the query result on success, nothing on
error. -/
def shardResultRows (exec : String → Except String (List MatchRow))
    (colsSql cond p : String) : List MatchRow :=
  match exec (queryFor colsSql ("https://data.commoncrawl.org/" ++ p) cond) with
  | .ok rows => rows
  | .error _ => []

/-- True when the query for shard p fails. -/
def shardFails (exec : String → Except String (List MatchRow))
    (colsSql cond p : String) : Bool :=
  match exec (queryFor colsSql ("https://data.commoncrawl.org/" ++ p) cond) with
  | .ok _ => false
  | .error _ => true

theorem scanShardsGo_spec (exec : String → Except String (List MatchRow))
    (colsSql cond : String) (ps : List String) (i : Nat) :
    (scanShardsGo exec colsSql cond i ps).matchSet =
      (ps.map (shardResultRows exec colsSql cond)).flatten ∧
    (scanShardsGo exec colsSql cond i ps).errors.length =
      ps.countP (shardFails exec colsSql cond) := by
  induction ps generalizing i with
  | nil => exact ⟨rfl, rfl⟩
  | cons p ps ih =>
    obtain ⟨ihm, ihe⟩ := ih (i + 1)
    simp only [scanShardsGo, List.map_cons, List.flatten_cons, List.countP_cons]
    cases hq : exec (queryFor colsSql ("https://data.commoncrawl.org/" ++ p) cond) with
    | ok rows =>
      have hr : shardResultRows exec colsSql cond p = rows := by
        unfold shardResultRows
        rw [hq]
      have hf : shardFails exec colsSql cond p = false := by
        unfold shardFails
        rw [hq]
      cases rows with
      | nil => simp [hr, hf, ihm, ihe]
      | cons r rs => simp [hr, hf, ihm, ihe]
    | error e =>
      have hr : shardResultRows exec colsSql cond p = [] := by
        unfold shardResultRows
        rw [hq]
      have hf : shardFails exec colsSql cond p = true := by
        unfold shardFails
        rw [hq]
      simp [hr, hf, ihm, ihe]

/-- The demo column list (COLUMNS_TO_READ of src/cc_run.py lines 21-31). -/
def demoCols : List String :=
  ["url", "url_host_tld", "url_host_registered_domain", "warc_filename",
   "warc_record_offset", "warc_record_length", "content_mime_type",
   "content_languages", "fetch_time"]

/-- A matching row served by shard 1 of the synthetic shard set. -/
def demoRow1 : MatchRow :=
  mkFilterRow (some "https://a.example/immigrant-news") (some "eng")
    (some "text/html")

/-- A matching row served by shard 3 of the synthetic shard set. -/
def demoRow3 : MatchRow :=
  mkFilterRow (some "https://c.example/immigration-law") (some "eng")
    (some "text/html")

/-- The query text the scan sends for a given shard path of the synthetic
set. -/
def demoQuery (p : String) : String :=
  queryFor (String.intercalate ", " demoCols)
    ("https://data.commoncrawl.org/" ++ p)
    (buildKeywordConditions ["immigrant"])

/-- Synthetic engine: shard 2 always errors, shards 1 and 3 return one match
each. -/
def exec3 : String → Except String (List MatchRow) := fun q =>
  if q = demoQuery "shard2" then .error "boom"
  else if q = demoQuery "shard1" then .ok [demoRow1]
  else .ok [demoRow3]

set_option maxRecDepth 8192 in
/-- Claim C2: each failing shard is caught at the shard boundary and the scan
continues; the run completes with exactly the matches of the non-failing
shards in shard order, and one error report per failed shard, so the number
of failed shards is reported (as the count of error reports).  In particular,
on a synthetic 3-shard set where only shard 2 errors, the result holds the
matches of shards 1 and 3 and exactly one failure report. -/
theorem C2_shard_isolation :
    (∀ (exec : String → Except String (List MatchRow))
       (paths keywords cols : List String) (num : Nat),
      (scan_and_filter_index_duckdb exec paths keywords num cols).matchSet =
        ((paths.take num).map
          (shardResultRows exec (String.intercalate ", " cols)
            (buildKeywordConditions keywords))).flatten ∧
      (scan_and_filter_index_duckdb exec paths keywords num cols).errors.length =
        (paths.take num).countP
          (shardFails exec (String.intercalate ", " cols)
            (buildKeywordConditions keywords))) ∧
    scan_and_filter_index_duckdb exec3 ["shard1", "shard2", "shard3"]
        ["immigrant"] 3 demoCols =
      ⟨[demoRow1, demoRow3], [(1, "Error: boom")]⟩ := by
  constructor
  · intro exec paths keywords cols num
    exact scanShardsGo_spec exec (String.intercalate ", " cols)
      (buildKeywordConditions keywords) (paths.take num) 0
  · decide

/-- The resolution of the shard-count limit, src/ccTool.py lines 30-49: when
scan_all_parquet is set the count becomes the manifest length, otherwise the
requested count is returned unchanged (the keyword list is only used for the
progress message). -/
def resolve_num_parquet_files (warc_parquet_paths : List String)
    (scan_all_parquet : Bool) (num_parquet_files : Nat)
    (_keywords : List String) : Nat :=
  if scan_all_parquet then warc_parquet_paths.length else num_parquet_files

/-- Claim C8 as stated is false on src/ccTool.py lines 30-49: with a 3-shard
manifest and a requested limit of 10, the resolved count is 10, not
min(10, 3) = 3; the code never clamps the requested count to the manifest
length (only the later list slice does). -/
theorem C8_counterexample :
    resolve_num_parquet_files ["a", "b", "c"] false 10 ["k"] = 10 ∧
    min 10 (["a", "b", "c"] : List String).length = 3 ∧ (10 : Nat) ≠ 3 := by
  decide

/-- Claim C8 amended: the resolved count equals the full manifest length when
scan_all_parquet is set and equals the requested count unchanged (not clamped
by min) otherwise; the scan then processes exactly the first
min(resolved, manifest length) shards of the manifest in order, because the
list slice at src/ccTool.py line 81 truncates at the manifest length. -/
theorem C8_amended (paths : List String) (scanAll : Bool) (n : Nat)
    (kws cols : List String)
    (exec : String → Except String (List MatchRow)) :
    resolve_num_parquet_files paths scanAll n kws =
      (if scanAll then paths.length else n) ∧
    scan_and_filter_index_duckdb exec paths kws
        (resolve_num_parquet_files paths scanAll n kws) cols =
      scan_and_filter_index_duckdb exec
        (paths.take (min (resolve_num_parquet_files paths scanAll n kws)
          paths.length))
        kws
        (min (resolve_num_parquet_files paths scanAll n kws) paths.length)
        cols := by
  refine ⟨rfl, ?_⟩
  unfold scan_and_filter_index_duckdb
  congr 1
  rw [List.take_take, List.take_eq_take]
  omega

/-- An engine that rejects every query with a parse error, as DuckDB does for
the malformed query produced by an empty keyword list (the WHERE clause then
contains an empty parenthesised condition). -/
def failExec : String → Except String (List MatchRow) :=
  fun _ => .error "Parser Error"

theorem flatten_nil_of_all_nil {α : Type} (l : List (List α))
    (h : ∀ x ∈ l, x = []) : l.flatten = [] := by
  induction l with
  | nil => rfl
  | cons x xs ih =>
    rw [List.flatten_cons, h x (List.mem_cons_self x xs),
      ih (fun y hy => h y (List.mem_cons_of_mem x hy))]
    rfl

/-- Claim C9 as stated is false on src/ccTool.py: with an empty keyword set
the scan performs no upfront validation and does not fail before shard work
starts.  The keyword condition string is empty, the malformed query is sent
to every selected shard, each shard execution error is caught at the shard
boundary (two shards are attempted here), and the run completes normally
with an empty match set. -/
theorem C9_counterexample :
    buildKeywordConditions [] = "" ∧
    scan_and_filter_index_duckdb failExec ["shard1", "shard2"] [] 2 demoCols =
      ⟨[], [(0, "Error: Parser Error"), (1, "Error: Parser Error")]⟩ := by
  decide

/-- Claim C9 amended: an empty keyword set is not rejected before work
starts; the generated keyword condition is the empty string, and if the
engine rejects every resulting query, every selected shard is still
attempted, each failure is contained at the shard boundary, and the scan
completes with no matches and one error report per selected shard. -/
theorem C9_amended (paths cols : List String) (num : Nat)
    (exec : String → Except String (List MatchRow)) (msg : String)
    (hexec : ∀ q, exec q = .error msg) :
    buildKeywordConditions [] = "" ∧
    (scan_and_filter_index_duckdb exec paths [] num cols).matchSet = [] ∧
    (scan_and_filter_index_duckdb exec paths [] num cols).errors.length =
      (paths.take num).length := by
  obtain ⟨hm, he⟩ := scanShardsGo_spec exec (String.intercalate ", " cols)
    (buildKeywordConditions []) (paths.take num) 0
  refine ⟨rfl, ?_, ?_⟩
  · unfold scan_and_filter_index_duckdb
    rw [hm]
    have h : ∀ p, shardResultRows exec (String.intercalate ", " cols)
        (buildKeywordConditions []) p = [] := by
      intro p
      unfold shardResultRows
      rw [hexec]
    apply flatten_nil_of_all_nil
    intro x hx
    obtain ⟨p, _, rfl⟩ := List.mem_map.mp hx
    exact h p
  · unfold scan_and_filter_index_duckdb
    rw [he]
    have h : ∀ p, shardFails exec (String.intercalate ", " cols)
        (buildKeywordConditions []) p = true := by
      intro p
      unfold shardFails
      rw [hexec]
    rw [List.countP_eq_length]
    intro a _
    exact h a

/-- Witness for C9_amended on a concrete one-shard manifest. -/
theorem C9_amended_witness :
    buildKeywordConditions [] = "" ∧
    (scan_and_filter_index_duckdb failExec ["s1"] [] 1 demoCols).matchSet = [] ∧
    (scan_and_filter_index_duckdb failExec ["s1"] [] 1 demoCols).errors.length =
      ((["s1"] : List String).take 1).length :=
  C9_amended ["s1"] demoCols 1 failExec "Parser Error" (fun _ => rfl)

/-- A cell of the persisted parquet file: a nullable string or a nullable
integer column value. -/
inductive PCell where
  | pstr (v : Option String)
  | pint (v : Option Int)
deriving DecidableEq, Repr

/-- Modelled from the spec: the self-describing structured serialization of
one MatchRecord performed by pandas to_parquet at src/ccTool.py line 146.
The parquet codec itself is external library code; the model keeps each
column name with its typed nullable value, which is exactly the information
the format preserves. -/
def encodeRow (r : MatchRow) : List (String × PCell) :=
  [("url", PCell.pstr r.url),
   ("url_host_tld", PCell.pstr r.url_host_tld),
   ("url_host_registered_domain", PCell.pstr r.url_host_registered_domain),
   ("warc_filename", PCell.pstr r.warc_filename),
   ("warc_record_offset", PCell.pint r.warc_record_offset),
   ("warc_record_length", PCell.pint r.warc_record_length),
   ("content_mime_type", PCell.pstr r.content_mime_type),
   ("content_languages", PCell.pstr r.content_languages),
   ("fetch_time", PCell.pstr r.fetch_time)]

/-- Modelled from the spec: reading one serialized row back into a MatchRow,
as pandas read_parquet does at src/ccTool.py line 174; anything of the wrong
shape fails to decode. -/
def decodeRow : List (String × PCell) → Option MatchRow
  | [("url", PCell.pstr u),
     ("url_host_tld", PCell.pstr tld),
     ("url_host_registered_domain", PCell.pstr dom),
     ("warc_filename", PCell.pstr wf),
     ("warc_record_offset", PCell.pint off),
     ("warc_record_length", PCell.pint len),
     ("content_mime_type", PCell.pstr mime),
     ("content_languages", PCell.pstr langs),
     ("fetch_time", PCell.pstr ft)] =>
    some ⟨u, tld, dom, wf, off, len, mime, langs, ft⟩
  | _ => none

/-- Decode a whole serialized frame; fails if any row fails. -/
def decodeDF : List (List (String × PCell)) → Option (List MatchRow)
  | [] => some []
  | c :: cs =>
    match decodeRow c, decodeDF cs with
    | some r, some rs => some (r :: rs)
    | _, _ => none

theorem decodeRow_encodeRow (r : MatchRow) : decodeRow (encodeRow r) = some r := by
  cases r
  rfl

theorem decodeDF_encode (df : List MatchRow) :
    decodeDF (df.map encodeRow) = some df := by
  induction df with
  | nil => rfl
  | cons r rs ih =>
    simp only [List.map_cons, decodeDF]
    rw [decodeRow_encodeRow r, ih]

/-- Modelled from the spec: per-cell deep memory charge of a nullable string
column value in pandas memory_usage(deep=True) — a missing value costs a
fixed overhead, a present string costs the string-object overhead plus its
payload length. -/
def strCellBytes : Option String → Nat
  | none => 32
  | some s => 49 + s.length

/-- Modelled from the spec: per-cell memory charge of an integer column
value (fixed-width storage). -/
def intCellBytes : Option Int → Nat := fun _ => 8

/-- Deep memory charge of one row across the nine columns, plus the per-row
pointer cost of the seven object columns. -/
def rowBytes (r : MatchRow) : Nat :=
  7 * 8 + strCellBytes r.url + strCellBytes r.url_host_tld +
    strCellBytes r.url_host_registered_domain + strCellBytes r.warc_filename +
    intCellBytes r.warc_record_offset + intCellBytes r.warc_record_length +
    strCellBytes r.content_mime_type + strCellBytes r.content_languages +
    strCellBytes r.fetch_time

/-- Modelled from the spec: the estimated deep in-memory size in bytes of the
filtered frame, pandas memory_usage(deep=True).sum() at src/ccTool.py
line 140 — a fixed index overhead plus the per-row deep charges. -/
def memory_size_bytes (df : List MatchRow) : Nat :=
  132 + (df.map rowBytes).sum

/-- File-system operation performed by the persister; the trace of these
operations is the observable side effect of src/ccTool.py lines 128-151. -/
inductive FsOp where
  | makedirs (path : String)
  | writeParquet (path : String) (content : List (List (String × PCell)))
  | rename (src dst : String)
deriving DecidableEq, Repr

/-- os.path.dirname for slash-separated paths: everything before the last
slash, empty when there is no slash. -/
def dirname (p : String) : String :=
  String.intercalate "/"
    (((splitOnChar (Char.ofNat 47) p.toList).map (fun g => String.mk g)).dropLast)

/-- The persister of src/ccTool.py lines 128-151: always creates the parent
directory of the destination first, computes the size estimate, and writes
the serialized frame directly to the destination iff the size in GB
(bytes divided by 1024 cubed) is strictly below max_gb, returning the
destination path on write and nothing otherwise.  The float division of the
source is modelled as exact rational division, which agrees with it because
dividing by a power of two only shifts the float exponent. -/
def save_filtered_index_if_small (filtered_df : List MatchRow)
    (output_path : String) (max_gb : ℚ) : List FsOp × Option String :=
  if (memory_size_bytes filtered_df : ℚ) / (1024 ^ 3) < max_gb then
    ([FsOp.makedirs (dirname output_path),
      FsOp.writeParquet output_path (filtered_df.map encodeRow)],
     some output_path)
  else
    ([FsOp.makedirs (dirname output_path)], none)

/-- The loader of src/ccTool.py lines 156-176: fails when the file does not
exist, otherwise decodes the stored frame.  The file system is the explicit
map `fs` from paths to stored content. -/
def load_filtered_index (fs : String → Option (List (List (String × PCell))))
    (path : String) : Except String (List MatchRow) :=
  match fs path with
  | none => .error ("Filtered index file not found: " ++ path)
  | some content =>
    match decodeDF content with
    | some df => .ok df
    | none => .error "read error"

/-- Claim C6: whenever the MatchSet is persisted (its estimated size is below
the threshold), loading the persisted file back yields a MatchSet
field-for-field equal to the original; in particular the record offset and
record length integers survive the round trip exactly. -/
theorem C6_roundtrip (df : List MatchRow) (path : String) (max_gb : ℚ)
    (h : (memory_size_bytes df : ℚ) / (1024 ^ 3) < max_gb) :
    (save_filtered_index_if_small df path max_gb).2 = some path ∧
    load_filtered_index
        (fun p => if p = path then some (df.map encodeRow) else none) path =
      .ok df := by
  constructor
  · unfold save_filtered_index_if_small
    rw [if_pos h]
  · unfold load_filtered_index
    simp [decodeDF_encode]

/-- A one-row frame with concrete provenance values, offset 12345 and
length 678. -/
def demoDF : List MatchRow :=
  [⟨some "https://a.example/immigrant", some "example", some "a.example",
    some "crawl-data/seg/warc/file.warc.gz", some 12345, some 678,
    some "text/html", some "eng", some "2024-02-20T00:00:00Z"⟩]

theorem demoDF_small : (memory_size_bytes demoDF : ℚ) / (1024 ^ 3) < 1 := by
  rw [div_lt_one (by norm_num)]
  have h1 : memory_size_bytes demoDF ≤ 1024 := by decide
  have h2 : (memory_size_bytes demoDF : ℚ) ≤ 1024 := by exact_mod_cast h1
  linarith

/-- Witness for C6_roundtrip on the concrete one-row frame. -/
theorem C6_roundtrip_witness :
    ((memory_size_bytes demoDF : ℚ) / (1024 ^ 3) < 1) ∧
    ((save_filtered_index_if_small demoDF "filtered_data/test.parquet" 1).2 =
        some "filtered_data/test.parquet" ∧
      load_filtered_index
          (fun p => if p = "filtered_data/test.parquet" then
            some (demoDF.map encodeRow) else none) "filtered_data/test.parquet" =
        .ok demoDF) :=
  ⟨demoDF_small, C6_roundtrip demoDF "filtered_data/test.parquet" 1 demoDF_small⟩

/-- The write strategy claim C7 requires, read off the operation trace: no
write ever targets the destination directly, and the destination is produced
by renaming a temporary file onto it. -/
def atomicTempRenameStrategy (ops : List FsOp) (dst : String) : Bool :=
  ops.all (fun op =>
    match op with
    | FsOp.writeParquet p _ => !(p == dst)
    | _ => true) &&
  ops.any (fun op =>
    match op with
    | FsOp.rename _ d => d == dst
    | _ => false)

/-- Claim C7 as stated is false on src/ccTool.py lines 128-151: on a frame
small enough to persist, the persister does return the destination and does
create the parent directory, but it writes the parquet file directly to the
destination — the trace holds a direct write and no rename, so the
temp-file-then-rename strategy the claim asserts is absent, and an
interrupted write can leave a partial file at the destination. -/
theorem C7_counterexample :
    (save_filtered_index_if_small demoDF "filtered_data/out.parquet" 1).2 =
      some "filtered_data/out.parquet" ∧
    FsOp.writeParquet "filtered_data/out.parquet" (demoDF.map encodeRow) ∈
      (save_filtered_index_if_small demoDF "filtered_data/out.parquet" 1).1 ∧
    atomicTempRenameStrategy
      (save_filtered_index_if_small demoDF "filtered_data/out.parquet" 1).1
      "filtered_data/out.parquet" = false := by
  unfold save_filtered_index_if_small
  rw [if_pos demoDF_small]
  refine ⟨rfl, ?_, ?_⟩
  · decide
  · decide

/-- Claim C7 amended: the persister writes the serialized set and returns the
destination path iff the estimated size is strictly below the threshold
(otherwise it performs no write and returns nothing), and it creates the
intermediate directories first in either case; but the write is a single
direct write to the destination with no temporary file and no rename, so it
is not atomic. -/
theorem C7_amended (df : List MatchRow) (path : String) (max_gb : ℚ) :
    ((save_filtered_index_if_small df path max_gb).2 = some path ↔
      (memory_size_bytes df : ℚ) / (1024 ^ 3) < max_gb) ∧
    (save_filtered_index_if_small df path max_gb).1.head? =
      some (FsOp.makedirs (dirname path)) ∧
    (save_filtered_index_if_small df path max_gb).1 =
      (if (memory_size_bytes df : ℚ) / (1024 ^ 3) < max_gb then
        [FsOp.makedirs (dirname path),
         FsOp.writeParquet path (df.map encodeRow)]
       else [FsOp.makedirs (dirname path)]) := by
  unfold save_filtered_index_if_small
  by_cases h : (memory_size_bytes df : ℚ) / (1024 ^ 3) < max_gb
  · rw [if_pos h, if_pos h]
    exact ⟨⟨fun _ => h, fun _ => rfl⟩, rfl, rfl⟩
  · rw [if_neg h, if_neg h]
    exact ⟨⟨fun hc => Option.noConfusion hc, fun hc => absurd hc h⟩, rfl, rfl⟩

/-- Parsed markup node: a text fragment or an element with a tag name and
children, the shape BeautifulSoup exposes after parsing. -/
inductive Node where
  | text (s : String)
  | elem (tag : String) (children : List Node)

/-- Characters collected up to the next opening angle bracket. -/
def spanNotLt : List Char → List Char × List Char
  | [] => ([], [])
  | c :: cs =>
    if c = Char.ofNat 60 then ([], c :: cs)
    else
      let r := spanNotLt cs
      (c :: r.1, r.2)

/-- Tag-name characters up to the closing angle bracket, and the remainder
after it. -/
def readTagName : List Char → List Char × List Char
  | [] => ([], [])
  | c :: cs =>
    if c = Char.ofNat 62 then ([], cs)
    else
      let r := readTagName cs
      (c :: r.1, r.2)

/-- Fuel-indexed recursive-descent parser for attribute-free well-formed
markup, modelling the html.parser document tree BeautifulSoup builds at
src/ccTool.py line 197 on such input: an open tag starts an element whose
children run to the matching close tag, any other character run is a text
node.  Each recursive call consumes at least one character, so fuel equal to
the input length plus one is sufficient. -/
def parseNodesF : Nat → List Char → List Node × List Char
  | 0, cs => ([], cs)
  | _ + 1, [] => ([], [])
  | f + 1, c :: cs =>
    if c = Char.ofNat 60 then
      match cs with
      | [] => ([], [])
      | d :: cs2 =>
        if d = Char.ofNat 47 then
          ([], (readTagName cs2).2)
        else
          let nm := readTagName cs
          let child := parseNodesF f nm.2
          let sib := parseNodesF f child.2
          (Node.elem (String.mk nm.1) child.1 :: sib.1, sib.2)
    else
      let tx := spanNotLt (c :: cs)
      let sib := parseNodesF f tx.2
      (Node.text (String.mk tx.1) :: sib.1, sib.2)

/-- Parse a markup string into its top-level node forest. -/
def parseHtml (s : String) : List Node :=
  (parseNodesF (s.length + 1) s.toList).1

/-- The fixed exclusion set of src/ccTool.py line 199. -/
def excludedTags : List String :=
  ["script", "style", "nav", "footer", "header", "aside", "noscript"]

/-- Fuel-indexed pruning: the decompose loop of src/ccTool.py lines 199-200
removes every element whose tag is in the exclusion set, together with its
whole subtree; other elements keep their pruned children. -/
def pruneListF : Nat → List String → List Node → List Node
  | 0, _, _ => []
  | _ + 1, _, [] => []
  | f + 1, excl, Node.text s :: rest => Node.text s :: pruneListF f excl rest
  | f + 1, excl, Node.elem t cs :: rest =>
    if excl.contains t then pruneListF f excl rest
    else Node.elem t (pruneListF f excl cs) :: pruneListF f excl rest

/- Fuel accounting: a forest parsed from an input of length n holds at most
n nodes, and every recursive call of the fuel-indexed traversals below steps
to a strict sub-forest, so fuel n + 1 is sufficient for any forest produced
by parseHtml on that input; extract_text threads exactly that fuel. -/

/-- Fuel-indexed collection of the text fragments of a forest in document
order (the strings get_text visits). -/
def stringsOfF : Nat → List Node → List String
  | 0, _ => []
  | _ + 1, [] => []
  | f + 1, Node.text s :: rest => s :: stringsOfF f rest
  | f + 1, Node.elem _ cs :: rest => stringsOfF f cs ++ stringsOfF f rest

/-- Fuel-indexed collection of every element tag of a forest, at any
depth. -/
def allTagsF : Nat → List Node → List String
  | 0, _ => []
  | _ + 1, [] => []
  | f + 1, Node.text _ :: rest => allTagsF f rest
  | f + 1, Node.elem t cs :: rest => t :: (allTagsF f cs ++ allTagsF f rest)

/-- True for the characters Python str.strip removes (ASCII whitespace). -/
def isSpaceChar (c : Char) : Bool :=
  c == Char.ofNat 32 || c == Char.ofNat 9 || c == Char.ofNat 10 ||
    c == Char.ofNat 13 || c == Char.ofNat 11 || c == Char.ofNat 12

/-- Drop leading whitespace characters. -/
def dropWhileSpace : List Char → List Char
  | [] => []
  | c :: cs => if isSpaceChar c then dropWhileSpace cs else c :: cs

/-- Python str.strip on ASCII whitespace: drop it from both ends. -/
def pyStrip (s : String) : String :=
  String.mk (dropWhileSpace (dropWhileSpace s.toList.reverse).reverse)

/-- get_text(separator = newline, strip = True) of src/ccTool.py line 202:
strip each text fragment, skip the ones that become empty, join the rest
with newline separators. -/
def getTextStripF (fuel : Nat) (ns : List Node) : String :=
  String.intercalate "\n"
    (((stringsOfF fuel ns).map pyStrip).filter (fun s => !(s == "")))

/-- The extraction pipeline of src/ccTool.py lines 197-202 on the decoded
record payload: parse the markup, decompose every excluded element, then
collect the stripped visible text joined by newlines.  A total Lean
function: it cannot raise, matching the never-raise behaviour of
BeautifulSoup with html.parser.  The byte decode with errors ignored
(line 195) happens before this model's string input. -/
def extract_text (html : String) : String :=
  getTextStripF (html.length + 1)
    (pruneListF (html.length + 1) excludedTags (parseHtml html))

/-- Byte-range fetch plus WARC decode of src/ccTool.py lines 181-208.  The
network and warcio layers are the explicit `fetched` outcome: an error
message when any step of the try block raises, otherwise the decoded record
payloads the archive iterator yields in order.  On error the function
returns the in-band string built from the Error: marker and the message
(line 206); with no record it falls through and returns none (line 208);
otherwise it returns the extracted text of the first record (line 203). -/
def fetch_text_from_warc (fetched : Except String (List String)) : Option String :=
  match fetched with
  | .error e => some ("Error: " ++ e)
  | .ok [] => none
  | .ok (html :: _) => some (extract_text html)

theorem allTagsF_nil (g : Nat) : allTagsF g [] = [] := by
  cases g <;> rfl

theorem pruneF_sound (excl : List String) :
    ∀ (f : Nat) (ns : List Node) (g : Nat),
      (allTagsF g (pruneListF f excl ns)).all
        (fun t => !(excl.contains t)) = true := by
  intro f
  induction f with
  | zero =>
    intro ns g
    rw [show pruneListF 0 excl ns = [] from rfl, allTagsF_nil]
    rfl
  | succ f ih =>
    intro ns g
    cases ns with
    | nil =>
      rw [show pruneListF (f + 1) excl [] = [] from rfl, allTagsF_nil]
      rfl
    | cons n rest =>
      cases n with
      | text s =>
        cases g with
        | zero => rfl
        | succ g => exact ih rest g
      | elem t cs =>
        by_cases ht : excl.contains t = true
        · have hp : pruneListF (f + 1) excl (Node.elem t cs :: rest) =
              pruneListF f excl rest := by
            show (if excl.contains t = true then pruneListF f excl rest
              else Node.elem t (pruneListF f excl cs) ::
                pruneListF f excl rest) = pruneListF f excl rest
            rw [if_pos ht]
          rw [hp]
          exact ih rest g
        · have ht2 : excl.contains t = false := by
            cases hc : excl.contains t
            · rfl
            · exact absurd hc ht
          have hp : pruneListF (f + 1) excl (Node.elem t cs :: rest) =
              Node.elem t (pruneListF f excl cs) :: pruneListF f excl rest := by
            show (if excl.contains t = true then pruneListF f excl rest
              else Node.elem t (pruneListF f excl cs) ::
                pruneListF f excl rest) =
              Node.elem t (pruneListF f excl cs) :: pruneListF f excl rest
            rw [if_neg ht]
          rw [hp]
          cases g with
          | zero => rfl
          | succ g =>
            rw [show allTagsF (g + 1)
                (Node.elem t (pruneListF f excl cs) :: pruneListF f excl rest) =
              t :: (allTagsF g (pruneListF f excl cs) ++
                allTagsF g (pruneListF f excl rest)) from rfl]
            rw [List.all_cons, List.all_append, ih cs g, ih rest g, ht2]
            rfl

/-- Claim C3: text extraction removes every element of the fixed exclusion
set script, style, nav, footer, header, aside, noscript before extracting
(no excluded tag survives pruning at any depth), produces the newline-join
of the per-fragment stripped nonempty text of what remains, never raises
(totality of the model), and on the concrete input
html/body/script-x/p-Hello markup the extracted text is exactly Hello. -/
theorem C3_text_extraction :
    (∀ (ns : List Node) (f g : Nat),
      (allTagsF g (pruneListF f excludedTags ns)).all
        (fun t => !(excludedTags.contains t)) = true) ∧
    (∀ html : String,
      extract_text html =
        String.intercalate "\n"
          (((stringsOfF (html.length + 1)
              (pruneListF (html.length + 1) excludedTags (parseHtml html))).map
            pyStrip).filter (fun s => !(s == "")))) ∧
    extract_text "<html><body><script>x</script><p>Hello</p></body></html>" =
      "Hello" := by
  refine ⟨fun ns f g => pruneF_sound excludedTags f ns g, fun html => rfl, ?_⟩
  decide

/-- List-level startsWith on strings (Python str.startswith), used because it
evaluates by kernel reduction. -/
def pyStartsWith (s pre : String) : Bool :=
  listStartsWith s.toList pre.toList

/-- The truthiness-based success test at src/ccTool.py line 237:
`if text and not text.startswith("Error:")` — a record counts as successful
exactly when the fetched text is present, nonempty, and does not start with
the Error: marker. -/
def classifyOkText (text : Option String) : Bool :=
  match text with
  | none => false
  | some s => !(s == "") && !(pyStartsWith s "Error:")

/-- Python percent-04d formatting of a natural number: decimal digits
zero-padded to width four. -/
def zeroPad4 (n : Nat) : String :=
  String.mk (List.replicate (4 - (toString n).length) (Char.ofNat 48)) ++
    toString n

/-- The output file name at src/ccTool.py line 238: doc_ then the zero-padded
running success count then .txt. -/
def docFilename (n : Nat) : String :=
  "doc_" ++ zeroPad4 n ++ ".txt"

/-- Sixty equals signs, the separator line of the provenance header. -/
def sepLine : String :=
  String.mk (List.replicate 60 (Char.ofNat 61))

/-- How a nullable provenance value prints in the f-string header (a missing
value prints as the None text). -/
def showCellStr : Option String → String
  | none => "None"
  | some s => s

/-- The content written for one record at src/ccTool.py lines 241-247: the
four-line provenance header, the separator line, a blank line, then the
extracted text. -/
def docContent (r : MatchRow) (text : String) : String :=
  "URL: " ++ showCellStr r.url ++ "\n" ++
    "Domain: " ++ showCellStr r.url_host_registered_domain ++ "\n" ++
    "Language: " ++ showCellStr r.content_languages ++ "\n" ++
    "Fetch Time: " ++ showCellStr r.fetch_time ++ "\n" ++
    sepLine ++ "\n\n" ++ text

/-- Loop of src/ccTool.py lines 226-249: for each selected row fetch the
text; when the success test passes, write one file named from the current
success counter and increment it, else write nothing.  Returns the written
(file name, content) pairs in order and the final counter. -/
def stcGo (fetch : MatchRow → Option String) :
    List MatchRow → Nat → List (String × String) × Nat
  | [], saved => ([], saved)
  | r :: rest, saved =>
    if classifyOkText (fetch r) then
      ((docFilename saved, docContent r ((fetch r).getD "")) ::
          (stcGo fetch rest (saved + 1)).1,
       (stcGo fetch rest (saved + 1)).2)
    else
      stcGo fetch rest saved

/-- save_text_content of src/ccTool.py lines 210-253: max_records defaults to
the frame length, the loop runs over the first min(max_records, length) rows,
and the function returns the success count.  The per-record fetch pipeline is
the explicit parameter `fetch`. -/
def save_text_content (fetch : MatchRow → Option String)
    (filtered_df : List MatchRow) (max_records : Option Nat) :
    List (String × String) × Nat :=
  stcGo fetch
    (filtered_df.take
      (min (max_records.getD filtered_df.length) filtered_df.length)) 0

theorem stcGo_spec (fetch : MatchRow → Option String) (rows : List MatchRow) :
    ∀ saved : Nat,
      (stcGo fetch rows saved).2 =
        saved + rows.countP (fun r => classifyOkText (fetch r)) ∧
      ((stcGo fetch rows saved).1).map Prod.fst =
        (List.range' saved
          (rows.countP (fun r => classifyOkText (fetch r)))).map docFilename := by
  induction rows with
  | nil =>
    intro saved
    simp [stcGo]
  | cons r rest ih =>
    intro saved
    by_cases h : classifyOkText (fetch r) = true
    · obtain ⟨ih2, ih1⟩ := ih (saved + 1)
      have hc : List.countP (fun x => classifyOkText (fetch x)) (r :: rest) =
          List.countP (fun x => classifyOkText (fetch x)) rest + 1 := by
        rw [List.countP_cons]
        simp [h]
      have hs : stcGo fetch (r :: rest) saved =
          ((docFilename saved, docContent r ((fetch r).getD "")) ::
            (stcGo fetch rest (saved + 1)).1,
           (stcGo fetch rest (saved + 1)).2) := by
        simp [stcGo, h]
      rw [hs, hc]
      refine ⟨?_, ?_⟩
      · show (stcGo fetch rest (saved + 1)).2 = _
        rw [ih2]
        omega
      · show ((docFilename saved, docContent r ((fetch r).getD "")) ::
            (stcGo fetch rest (saved + 1)).1).map Prod.fst = _
        rw [List.map_cons, ih1, List.range'_succ, List.map_cons]
    · obtain ⟨ih2, ih1⟩ := ih saved
      have hc : List.countP (fun x => classifyOkText (fetch x)) (r :: rest) =
          List.countP (fun x => classifyOkText (fetch x)) rest := by
        rw [List.countP_cons]
        simp [h]
      have hs : stcGo fetch (r :: rest) saved = stcGo fetch rest saved := by
        simp [stcGo, h]
      rw [hs, hc]
      exact ⟨ih2, ih1⟩

/-- Claim C4: the extraction coordinator processes exactly the first
min(max_records, number of rows) records in input order (all rows when
max_records is unset); each output file carries a zero-padded sequence
number equal to its position among the successfully written records, so
failed records leave no gaps in the numbering; and the returned value is the
count of records successfully written. -/
theorem C4_extraction_coordinator (fetch : MatchRow → Option String)
    (rows : List MatchRow) (m : Nat) :
    save_text_content fetch rows none =
      save_text_content fetch rows (some rows.length) ∧
    save_text_content fetch rows (some m) =
      save_text_content fetch (rows.take (min m rows.length)) none ∧
    (save_text_content fetch rows (some m)).2 =
      (rows.take (min m rows.length)).countP
        (fun r => classifyOkText (fetch r)) ∧
    (save_text_content fetch rows (some m)).1.map Prod.fst =
      (List.range ((save_text_content fetch rows (some m)).2)).map
        docFilename := by
  obtain ⟨h2, h1⟩ := stcGo_spec fetch (rows.take (min m rows.length)) 0
  have hcount : (save_text_content fetch rows (some m)).2 =
      (rows.take (min m rows.length)).countP
        (fun r => classifyOkText (fetch r)) := by
    show (stcGo fetch (rows.take (min m rows.length)) 0).2 = _
    rw [h2]
    omega
  refine ⟨rfl, ?_, hcount, ?_⟩
  · unfold save_text_content
    rw [show (some m).getD rows.length = m from rfl,
      show (none : Option Nat).getD (rows.take (min m rows.length)).length =
        (rows.take (min m rows.length)).length from rfl,
      min_self, List.take_length]
  · rw [hcount]
    show (stcGo fetch (rows.take (min m rows.length)) 0).1.map Prod.fst = _
    rw [h1, List.range_eq_range']

/-- Claim C5 as stated is false on src/ccTool.py lines 228-249: a record
whose byte-range fetch and decode both succeed but whose payload extracts to
the empty string (no visible content) is dropped by the truthiness test at
line 237 — no output file is written and the record is not counted — where
the claim requires exactly one ExtractedDocument with empty text. -/
theorem C5_counterexample :
    fetch_text_from_warc (.ok [""]) = some "" ∧
    save_text_content (fun _ => fetch_text_from_warc (.ok [""]))
      [demoRow1] none = ([], 0) := by
  refine ⟨?_, ?_⟩ <;> decide

/-- Claim C5 amended: one output file is written per processed record whose
returned text is nonempty and does not start with the Error: marker — the
number of files written always equals the returned success count — but a
record whose fetch and decode succeed with empty extracted text is skipped
and uncounted, not given an empty ExtractedDocument. -/
theorem C5_amended (fetch : MatchRow → Option String) (rows : List MatchRow)
    (maxr : Option Nat) (r : MatchRow) :
    (save_text_content fetch rows maxr).1.length =
      (save_text_content fetch rows maxr).2 ∧
    (save_text_content fetch [r] none).1.length =
      (if classifyOkText (fetch r) then 1 else 0) := by
  constructor
  · obtain ⟨h2, h1⟩ := stcGo_spec fetch
      (rows.take (min (maxr.getD rows.length) rows.length)) 0
    have hlen := congrArg List.length h1
    simp only [List.length_map, List.length_range'] at hlen
    show (stcGo fetch
        (rows.take (min (maxr.getD rows.length) rows.length)) 0).1.length =
      (stcGo fetch
        (rows.take (min (maxr.getD rows.length) rows.length)) 0).2
    rw [hlen, h2]
    omega
  · show (stcGo fetch [r] 0).1.length = _
    by_cases h : classifyOkText (fetch r) = true <;> simp [stcGo, h]

/-- Claim C10: per-record failures are signaled in-band — on any exception
the fetcher returns the Error: marker followed by the message instead of a
distinct error value; the coordinator classifies a record as failed exactly
when the returned text is missing, empty, or starts with the Error: marker;
consequently a record whose fetch and decode succeed but whose genuine page
text begins with the marker is treated as a failure and no output file is
written. -/
theorem C10_inband_errors :
    (∀ e : String, fetch_text_from_warc (.error e) = some ("Error: " ++ e)) ∧
    (∀ t : Option String, classifyOkText t = false ↔
      (t = none ∨ t = some "" ∨
        ∃ s, t = some s ∧ pyStartsWith s "Error:" = true)) ∧
    fetch_text_from_warc (.ok ["Error: genuine page text"]) =
      some "Error: genuine page text" ∧
    save_text_content
        (fun _ => fetch_text_from_warc (.ok ["Error: genuine page text"]))
        [demoRow3] none = ([], 0) := by
  refine ⟨fun e => rfl, ?_, ?_, ?_⟩
  · intro t
    cases t with
    | none => simp [classifyOkText]
    | some s =>
      constructor
      · intro hf
        by_cases h1 : s = ""
        · exact Or.inr (Or.inl (by rw [h1]))
        · refine Or.inr (Or.inr ⟨s, rfl, ?_⟩)
          cases hp : pyStartsWith s "Error:" with
          | true => rfl
          | false =>
            exfalso
            rw [show classifyOkText (some s) =
              (!(s == "") && !(pyStartsWith s "Error:")) from rfl, hp] at hf
            simp [h1] at hf
      · rintro (h | h | ⟨s2, hs2, hp⟩)
        · cases h
        · obtain rfl : s = "" := Option.some.inj h
          simp [classifyOkText]
        · obtain rfl : s = s2 := Option.some.inj hs2
          simp [classifyOkText, hp]
  · decide
  · decide
